import Mathlib

/-!
Verification of the media indexer daemon (com.webos.service.mediaindexer).

Shallow embedding of the indexing core: the MediaItem value object
(mediaitem.cpp), the Configurator extension table (configurator.cpp), the
MediaDb query builders and response handlers (mediadb.cpp), the DbConnector
request plumbing and token/session map (dbconnector.cpp), and the
requestMediaScan RPC handler (indexerservice.cpp).

Machine integers are modelled as Nat/Int, C++ strings as Lean String (or
List Char where single characters are inspected), JSON documents as the
concrete record shapes the code builds, and the void* session object as an
opaque numeric identifier.
-/

namespace MediaIndexer

/-! ## Media item data model (mediaitem.h) -/

/-- MediaItem::Type from mediaitem.h: Audio, Video, Image, EOL. -/
inductive MediaType
  | audio
  | video
  | image
  | eol
deriving DecidableEq, Repr

/-- MediaItem::ExtractorType used by the Configurator (configurator.cpp):
TagLibExtractor, GStreamerExtractor, ImageExtractor, EOL. -/
inductive ExtractorType
  | taglib
  | gstreamer
  | imageExtractor
  | eol
deriving DecidableEq, Repr

/-- MediaItem::Meta from mediaitem.h (the enum in src/, ending at GeoLocCity). -/
inductive MetaKey
  | title
  | genre
  | album
  | artist
  | albumArtist
  | track
  | totalTracks
  | dateOfCreation
  | duration
  | geoLocLongitude
  | geoLocLatitude
  | geoLocCountry
  | geoLocCity
  | eol
deriving DecidableEq, Repr

/-- MediaItem::MetaData, the std::variant of int64_t, double and string. -/
inductive MetaData
  | intVal : Int → MetaData
  | floatVal : Float → MetaData
  | strVal : String → MetaData

/-- The mutable part of a MediaItem that setMeta touches (mediaitem.cpp):
the sparse meta map, the parsed flag, plus the identifying fields. -/
structure MediaItemState where
  uri : String
  mime : String
  typ : MediaType
  hash : Nat
  parsed : Bool
  metaMap : MetaKey → Option MetaData

/-- Point update of the meta map, the std::map::insert_or_assign calls in
MediaItem::setMeta. -/
def metaMapAssign (f : MetaKey → Option MetaData) (k : MetaKey) (v : MetaData) :
    MetaKey → Option MetaData :=
  fun q => if q = k then some v else f q

/-- MediaItem::setMeta (mediaitem.cpp:165-194): sets parsed_ to true, copies
the value to AlbumArtist when Artist is set while AlbumArtist is absent,
then stores the value under the given key. -/
def setMeta (m : MediaItemState) (k : MetaKey) (v : MetaData) : MediaItemState :=
  let meta1 :=
    if k == MetaKey.artist && (m.metaMap MetaKey.albumArtist).isNone then
      metaMapAssign m.metaMap MetaKey.albumArtist v
    else
      m.metaMap
  { m with parsed := true, metaMap := metaMapAssign meta1 k v }

/-! ## MediaItem uri construction (mediaitem.cpp:108-139, claim C5)

The constructor builds the uri character by character, so here device uri
and path are their character lists. -/

/-- The uri composition in the MediaItem constructor (mediaitem.cpp:119-122):
start from the device uri, append a single slash only when the device uri
does not end with one and the path does not begin with one, then append
the path. -/
def mediaItemUri (deviceUri path : List Char) : List Char :=
  if deviceUri.getLast? ≠ some '/' ∧ path.head? ≠ some '/' then
    deviceUri ++ '/' :: path
  else
    deviceUri ++ path

/-- The uri shape the spec describes (spec §3): the device uri and the
relative path joined by exactly one slash, a trailing slash of the device
uri and a leading slash of the path being absorbed into the single joiner.
Stated from the words of the spec for comparison with mediaItemUri. -/
def specSingleSlashJoin (deviceUri path : List Char) : List Char :=
  (if deviceUri.getLast? = some '/' then deviceUri.dropLast else deviceUri) ++
    '/' :: (if path.head? = some '/' then path.tail else path)

/-! ## Database queries (dbconnector.cpp, mediadb.cpp)

The three media kinds of the store. Their string identifiers (AUDIO_KIND,
VIDEO_KIND, IMAGE_KIND) live in mediadb.h; only their distinctness matters
here, so they are an enumeration. -/

/-- The three store kinds audio / video / image. -/
inductive KindId
  | audio
  | video
  | image
deriving DecidableEq, Repr

/-- The kindMap_ entries of MediaDb, one (media type, kind) pair per real
media type. -/
def kindPairs : List (MediaType × KindId) :=
  [(MediaType.audio, KindId.audio),
   (MediaType.video, KindId.video),
   (MediaType.image, KindId.image)]

/-- A JSON value appearing in the queries the code builds: a string, a
boolean, or a kind identifier (the _kind property). -/
inductive DbVal
  | s : String → DbVal
  | b : Bool → DbVal
  | k : KindId → DbVal
deriving DecidableEq, Repr

/-- One condition of a where / filter clause:
{prop: key, op: "=" or "%", val: value}. -/
structure WhereCond where
  prop : String
  op : String
  val : DbVal
deriving DecidableEq, Repr

/-- MediaDb::prepareWhere for a string value (mediadb.cpp:722-733): a
one-condition clause with op "=" when precise and "%" when not. -/
def prepareWhereStr (key : String) (value : String) (precise : Bool) : List WhereCond :=
  [{ prop := key, op := if precise then "=" else "%", val := DbVal.s value }]

/-- MediaDb::prepareWhere for a boolean value (mediadb.cpp:735-746). -/
def prepareWhereBool (key : String) (value : Bool) (precise : Bool) : List WhereCond :=
  [{ prop := key, op := if precise then "=" else "%", val := DbVal.b value }]

/-- A search request as built by the MediaDb query builders: the select
list, the kind in "from", the where clause, the filter clause and the
optional limit. -/
structure SearchQuery where
  select : List String
  fromKind : KindId
  whereCl : List WhereCond
  filter : List WhereCond
  limit : Option Int
deriving DecidableEq, Repr

/-- A merge request as built by DbConnector::merge: the kind in "from",
the props to set and the where clause. -/
structure MergeQuery where
  fromKind : KindId
  props : List (String × DbVal)
  whereCl : List WhereCond
deriving DecidableEq, Repr

/-- DbConnector::merge (dbconnector.cpp:133-169): query from the kind, a
single where condition on whereProp with op "=" when precise and "%" when
not, and the props extended with the _kind of the target kind. -/
def dbMerge (kindName : KindId) (props : List (String × DbVal)) (whereProp : String)
    (whereVal : String) (precise : Bool) : MergeQuery :=
  { fromKind := kindName
    props := props ++ [("_kind", DbVal.k kindName)]
    whereCl := [{ prop := whereProp, op := if precise then "=" else "%",
                  val := DbVal.s whereVal }] }

/-- MediaDb::markDirty (mediadb.cpp:481-494): props {dirty: true}; with
type EOL one non-precise merge on uri against each of the three kinds,
with a concrete type a single such merge against that type's kind. -/
def markDirty (deviceUri : String) (t : MediaType) : List MergeQuery :=
  let props := [("dirty", DbVal.b true)]
  match t with
  | MediaType.eol =>
      [dbMerge KindId.audio props "uri" deviceUri false,
       dbMerge KindId.video props "uri" deviceUri false,
       dbMerge KindId.image props "uri" deviceUri false]
  | MediaType.audio => [dbMerge KindId.audio props "uri" deviceUri false]
  | MediaType.video => [dbMerge KindId.video props "uri" deviceUri false]
  | MediaType.image => [dbMerge KindId.image props "uri" deviceUri false]

/-- MediaDb::removeDirty (mediadb.cpp:514-537): one search per kind with
select [uri, thumbnail], a non-precise where on uri against the device
uri, and a precise filter dirty = true. -/
def removeDirty (deviceUri : String) : List SearchQuery :=
  kindPairs.map fun p =>
    { select := ["uri", "thumbnail"]
      fromKind := p.2
      whereCl := prepareWhereStr "uri" deviceUri false
      filter := prepareWhereBool "dirty" true true
      limit := none }

/-- One row of a removeDirty search response as read by the handler:
item["uri"].asString() and item["thumbnail"].asString(), the empty string
standing for an absent field. -/
structure SearchResultItem where
  uri : String
  thumbnail : String
deriving DecidableEq, Repr

/-- An effect of the RemoveDirty response handler: a del request against a
kind, the removal of a thumbnail file, or a sync() call. -/
inductive CleanupAction
  | delRecord : KindId → List WhereCond → CleanupAction
  | unlinkFile : String → CleanupAction
  | syncFs : CleanupAction
deriving DecidableEq, Repr

/-- The RemoveDirty case of MediaDb::handleLunaResponseMetaData
(mediadb.cpp:287-321): for each result row, when its uri is non-empty a
del with a precise where on that uri against the kind of the originating
query, and when its thumbnail is non-empty the removal of that file
followed by sync(). -/
def removeDirtyResponseActions (kind : KindId) (results : List SearchResultItem) :
    List CleanupAction :=
  results.flatMap fun item =>
    (if item.uri ≠ "" then
      [CleanupAction.delRecord kind (prepareWhereStr "uri" item.uri true)]
    else []) ++
    (if item.thumbnail ≠ "" then
      [CleanupAction.unlinkFile item.thumbnail, CleanupAction.syncFs]
    else [])

/-! ## Device counts and the cleanup trigger -/

/-- The per-device counters the completion tracking uses. -/
structure DeviceState where
  uri : String
  itemCounts : MediaType → Nat
  processedCounts : MediaType → Nat

/-- The real media types, in enum order. -/
def mediaTypes : List MediaType := [MediaType.audio, MediaType.video, MediaType.image]

/-- Modelled from the spec: Device::processingDone of device.cpp is not
under src/; per spec §3 it holds iff processed_counts[t] = item_counts[t]
for every media type t with item_counts[t] > 0. -/
def processingDone (d : DeviceState) : Bool :=
  mediaTypes.all fun t => d.itemCounts t == 0 || d.processedCounts t == d.itemCounts t

/-- Modelled from the spec: Device::incrementProcessedItemCount of
device.cpp is not under src/; per spec §4.4 it increments the processed
count of the given type. -/
def incrementProcessed (d : DeviceState) (t : MediaType) : DeviceState :=
  { d with processedCounts :=
      fun q => if q = t then d.processedCounts q + 1 else d.processedCounts q }

/-- The mergePut / unflagDirty acknowledgement branch of
MediaDb::handleLunaResponse (mediadb.cpp:112-131): increment the processed
count of the item's type and, when processingDone now holds, activate the
cleanup task. Device::activateCleanUpTask of device.cpp is not under src/;
modelled from the spec (§4.4, §4.6) as running the dirty-removal sweep
MediaDb::removeDirty. -/
def handleMergePutAck (d : DeviceState) (t : MediaType) : DeviceState × List SearchQuery :=
  let d2 := incrementProcessed d t
  if processingDone d2 then (d2, removeDirty d2.uri) else (d2, [])

/-! ## Store semantics for merge (external collaborator)

The com.webos.mediadb document store is an external service (spec §1,
§4.6); only the meaning of the where operators is needed, and
dbconnector.h documents precise as an exact match and non-precise as
"starts with". -/

/-- A stored record, reduced to the fields the dirty protocol touches. -/
structure StoreRecord where
  uri : String
  dirty : Bool
deriving DecidableEq, Repr

/-- The starts-with test on strings, character by character. -/
def strStartsWith (pre s : String) : Bool :=
  pre.data.isPrefixOf s.data

/-- Modelled from the spec: the store's evaluation of one where condition
(op "=" exact match, op "%" starts-with match on uri). -/
def condMatches (r : StoreRecord) (c : WhereCond) : Bool :=
  if c.prop = "uri" then
    match c.val with
    | DbVal.s v => if c.op = "=" then r.uri == v else strStartsWith v r.uri
    | _ => false
  else if c.prop = "dirty" then
    match c.val with
    | DbVal.b v => r.dirty == v
    | _ => false
  else false

/-- Application of merge props to a record: only the dirty field of the
record model is settable. -/
def applyProps (r : StoreRecord) (props : List (String × DbVal)) : StoreRecord :=
  props.foldl
    (fun acc p =>
      if p.1 = "dirty" then
        match p.2 with
        | DbVal.b v => { acc with dirty := v }
        | _ => acc
      else acc)
    r

/-- Modelled from the spec: the store's merge-where (§4.6 merge_where)
updates, in the target kind, every record matching the where clause with
the given props. -/
def applyMerge (store : KindId → List StoreRecord) (q : MergeQuery) :
    KindId → List StoreRecord :=
  fun k =>
    if k = q.fromKind then
      (store k).map fun r =>
        if q.whereCl.all (condMatches r) then applyProps r q.props else r
    else store k

/-- Sequential application of a batch of merges. -/
def applyMerges (store : KindId → List StoreRecord) (qs : List MergeQuery) :
    KindId → List StoreRecord :=
  qs.foldl applyMerge store

/-! ## Deduplication check (mediadb.cpp needUpdate / isEnoughInfo) -/

/-- A row of a find response as needUpdate reads it: each field an
optional string, except the hash. The store holds the hash as the decimal
string written by updateMediaItem (std::to_string, mediadb.cpp:440) and
needUpdate parses it back with std::stoul; the round-trip is exact, so
the model keeps the numeric value. -/
structure DbRow where
  uriF : Option String
  hashF : Option Nat
  thumbnailF : Option String
  widthF : Option String
  heightF : Option String
deriving DecidableEq, Repr

/-- MediaDb::isEnoughInfo (mediadb.cpp:404-428): audio and video need a
present, non-empty thumbnail; image needs present, non-empty width and
height; any other type yields false. -/
def isEnoughInfo (t : MediaType) (row : DbRow) : Bool :=
  match t with
  | MediaType.audio | MediaType.video =>
      match row.thumbnailF with
      | some s => !s.isEmpty
      | none => false
  | MediaType.image =>
      (match row.widthF with
       | some s => !s.isEmpty
       | none => false) &&
      (match row.heightF with
       | some s => !s.isEmpty
       | none => false)
  | MediaType.eol => false

/-- MediaDb::needUpdate (mediadb.cpp:347-402) applied to the find
response: none models a response without a "results" key; otherwise the
rows of "results". True means the item needs metadata extraction. -/
def needUpdate (m : MediaItemState) (resp : Option (List DbRow)) : Bool :=
  match resp with
  | none => true
  | some [] => true
  | some (row :: _) =>
      if row.uriF.isNone || row.hashF.isNone then true
      else if row.hashF ≠ some m.hash then true
      else if !isEnoughInfo m.typ row then true
      else false

/-! ## The find retry loop of needUpdate (mediadb.cpp:358-361, claim C9)

do { ret = find(...); } while (!ret);

outcomes j is the result of the (j+1)-th find call. The runner observes
the loop for at most fuel iterations and returns the total number of find
calls issued when the loop exits within that window, none when the loop
is still running after fuel calls. -/

/-- Step-indexed run of the needUpdate find retry loop, starting before
the (i+1)-th call. -/
def findLoopRun (outcomes : Nat → Bool) : Nat → Nat → Option Nat
  | 0, _ => none
  | fuel + 1, i => if outcomes i then some (i + 1) else findLoopRun outcomes fuel (i + 1)

/-! ## List query builders (mediadb.cpp) and the metadata handlers -/

/-- MediaDb::getVideoList (mediadb.cpp:598-634): a search on the video
kind; empty uri gives a precise where dirty = false and no filter, a
non-empty uri a non-precise where on uri plus a precise filter
dirty = false; count zero means no limit. -/
def getVideoListQuery (uri : String) (count : Int) : SearchQuery :=
  { select := ["uri", "file_path", "dirty", "last_modified_date", "file_size",
               "width", "height", "title", "duration", "thumbnail"]
    fromKind := KindId.video
    whereCl := if uri = "" then prepareWhereBool "dirty" false true
               else prepareWhereStr "uri" uri false
    filter := if uri = "" then [] else prepareWhereBool "dirty" false true
    limit := if count ≠ 0 then some count else none }

/-- MediaDb::getImageList (mediadb.cpp:636-671): the same shape against
the image kind. -/
def getImageListQuery (uri : String) (count : Int) : SearchQuery :=
  { select := ["uri", "type", "dirty", "last_modified_date", "file_size",
               "file_path", "title", "width", "height"]
    fromKind := KindId.image
    whereCl := if uri = "" then prepareWhereBool "dirty" false true
               else prepareWhereStr "uri" uri false
    filter := if uri = "" then [] else prepareWhereBool "dirty" false true
    limit := if count ≠ 0 then some count else none }

/-- The store query issued by IndexerService::onGetImageMetadata
(indexerservice.cpp:905-958): the handler calls mdb->getVideoList(uri,
resp) at line 936. Modelled from the spec: the two-argument
MediaDb::getVideoList overload is declared in mediadb.h, which is not
under src/; like the MediaDb::getVideoList in src/ it queries the video
kind, here with the default count 0. -/
def onGetImageMetadataQuery (uri : String) : SearchQuery :=
  getVideoListQuery uri 0

/-- The store query issued by IndexerService::onGetVideoMetadata
(indexerservice.cpp:812), for comparison: also mdb->getVideoList(uri,
resp). -/
def onGetVideoMetadataQuery (uri : String) : SearchQuery :=
  getVideoListQuery uri 0

/-! ## requestMediaScan (indexerservice.cpp:1015-1078) -/

/-- A device as the scan loop sees it. -/
structure ScanDevice where
  uri : String
  mountpoint : String
deriving DecidableEq, Repr

/-- A plugin with its device table and its matchUri predicate
(Plugin::matchUri is virtual; its implementations live in the plugins
directory, not under src/, so it stays an abstract predicate on
(mountpoint, path)). -/
structure ScanPlugin where
  devices : List ScanDevice
  matchUri : String → String → Bool

/-- The devices requestMediaScan scans: per plugin the first device whose
mountpoint matches the path (the inner loop breaks after the first
match). -/
def scannedDevices (plugins : List ScanPlugin) (path : String) : List ScanDevice :=
  plugins.filterMap fun p => p.devices.find? fun d => p.matchUri d.mountpoint path

/-- The common RPC reply triple. -/
structure RpcReply where
  returnValue : Bool
  errorCode : Int
  errorText : String
deriving DecidableEq, Repr

/-- IndexerService::requestMediaScan (indexerservice.cpp:1015-1071): scan
every matching device (at most one per plugin); reply No Error when some
device was scanned and waitForScan did not time out, otherwise the Scan
Failed error reply. waitOk is the outcome of waitForScan, which is only
consulted when a scan started. -/
def requestMediaScan (plugins : List ScanPlugin) (path : String) (waitOk : Bool) :
    RpcReply × List ScanDevice :=
  let scanned := scannedDevices plugins path
  if !scanned.isEmpty && waitOk then
    ({ returnValue := true, errorCode := 0, errorText := "No Error" }, scanned)
  else
    ({ returnValue := false, errorCode := -1, errorText := "Scan Failed" }, scanned)

/-! ## Configurator (configurator.cpp) -/

/-- The supportedMediaExtension object of the configuration document. -/
structure MediaConfig where
  audioExts : List String
  videoExts : List String
  imageExts : List String
deriving DecidableEq, Repr

/-- The in-memory extension table, an association of extension to
(media type, extractor kind). -/
abbrev ExtMap : Type := List (String × (MediaType × ExtractorType))

/-- std::map::insert as used by Configurator::init: inserts only when the
key is not yet present (only lookup behaviour matters, so the entry is
appended). -/
def extInsert (m : ExtMap) (key : String) (v : MediaType × ExtractorType) : ExtMap :=
  match List.lookup key m with
  | some _ => m
  | none => m ++ [(key, v)]

/-- The value Configurator::init inserts for an audio extension
(configurator.cpp:71-78): mp3 and ogg go to the taglib extractor, every
other audio extension to the GStreamer extractor. -/
def audioTypeInfo (ext : String) : MediaType × ExtractorType :=
  if ext = "mp3" || ext = "ogg" then (MediaType.audio, ExtractorType.taglib)
  else (MediaType.audio, ExtractorType.gstreamer)

/-- Configurator::init (configurator.cpp:40-101): insert the audio
extensions, then the video extensions with (Video, GStreamer), then the
image extensions with (Image, ImageExtractor). -/
def configInit (c : MediaConfig) : ExtMap :=
  let m1 := c.audioExts.foldl (fun m e => extInsert m e (audioTypeInfo e)) []
  let m2 := c.videoExts.foldl
    (fun m e => extInsert m e (MediaType.video, ExtractorType.gstreamer)) m1
  c.imageExts.foldl
    (fun m e => extInsert m e (MediaType.image, ExtractorType.imageExtractor)) m2

/-- Configurator::getTypeInfo (configurator.cpp:113-122): the stored pair,
or (EOL, EOL) when the extension is absent. -/
def getTypeInfo (m : ExtMap) (ext : String) : MediaType × ExtractorType :=
  match List.lookup ext m with
  | some v => v
  | none => (MediaType.eol, ExtractorType.eol)

/-! ## Token / session map (dbconnector.cpp:381-416) -/

/-- DbConnector::SessionData: the method name and the arbitrary object,
the void* modelled as an opaque numeric identifier. -/
structure SessionData where
  method : String
  object : Nat
deriving DecidableEq, Repr

/-- DbConnector::rememberSessionData (dbconnector.cpp:401-416):
std::map::emplace, which stores the pair only when the token is not yet
present (only lookup and erase behaviour matter, so the entry is
prepended). -/
def rememberSessionData (m : List (Nat × SessionData)) (token : Nat)
    (method : String) (object : Nat) : List (Nat × SessionData) :=
  match List.lookup token m with
  | some _ => m
  | none => (token, { method := method, object := object }) :: m

/-- DbConnector::sessionDataFromToken (dbconnector.cpp:381-392): look the
token up; on a miss return false (none) with the map untouched, on a hit
return the stored session data and erase the entry. -/
def sessionDataFromToken (m : List (Nat × SessionData)) (token : Nat) :
    Option SessionData × List (Nat × SessionData) :=
  match List.lookup token m with
  | none => (none, m)
  | some sd => (some sd, m.filter fun p => p.1 ≠ token)

/-! ## Theorems -/

/-- C7: for every MediaItem m and call m.setMeta(meta, value), afterwards
m.parsed() is true; the entry for meta equals value; if meta is Artist and
m had no AlbumArtist entry before, afterwards the AlbumArtist entry equals
value; every other entry is unchanged. -/
theorem c7_setMeta_invariant (m : MediaItemState) (k : MetaKey) (v : MetaData) :
    (setMeta m k v).parsed = true ∧
    (setMeta m k v).metaMap k = some v ∧
    (k = MetaKey.artist → m.metaMap MetaKey.albumArtist = none →
      (setMeta m k v).metaMap MetaKey.albumArtist = some v) ∧
    (∀ q, q ≠ k →
      ¬(k = MetaKey.artist ∧ q = MetaKey.albumArtist ∧
        m.metaMap MetaKey.albumArtist = none) →
      (setMeta m k v).metaMap q = m.metaMap q) := by
  refine ⟨rfl, ?_, ?_, ?_⟩
  · simp [setMeta, metaMapAssign]
  · intro hk hab
    subst hk
    simp [setMeta, metaMapAssign, hab]
  · intro q hqk hnot
    by_cases hc : ((k == MetaKey.artist) && (m.metaMap MetaKey.albumArtist).isNone) = true
    · have hk : k = MetaKey.artist := by
        have h1 := (Bool.and_eq_true _ _).mp hc
        exact eq_of_beq h1.1
      have hno : m.metaMap MetaKey.albumArtist = none := by
        have h1 := (Bool.and_eq_true _ _).mp hc
        exact Option.isNone_iff_eq_none.mp h1.2
      have hq : q ≠ MetaKey.albumArtist := fun h => hnot ⟨hk, h, hno⟩
      simp [setMeta, metaMapAssign, hc, hqk, hq]
    · simp [setMeta, metaMapAssign, hc, hqk]

/-- A media item with empty meta map, used to instantiate the setMeta
theorem. -/
def sampleItem : MediaItemState :=
  { uri := "msc://4013-0934/a.mp3"
    mime := "audio/mpeg"
    typ := MediaType.audio
    hash := 100
    parsed := false
    metaMap := fun _ => none }

/-- Witness for C7: setting Artist on an item without AlbumArtist copies
the value to AlbumArtist. -/
theorem c7_setMeta_invariant_witness :
    (setMeta sampleItem MetaKey.artist (MetaData.strVal "GG")).metaMap
      MetaKey.albumArtist = some (MetaData.strVal "GG") :=
  (c7_setMeta_invariant sampleItem MetaKey.artist (MetaData.strVal "GG")).2.2.1 rfl rfl

/-- A string is non-empty iff isEmpty is false. -/
theorem isEmpty_false_iff (s : String) : s.isEmpty = false ↔ s ≠ "" := by
  rw [Bool.eq_false_iff]
  exact not_congr (String.isEmpty_iff s)

/-- needUpdate on a non-empty results list, characterized by the first
row. -/
theorem needUpdate_cons_eq_false (m : MediaItemState) (row : DbRow) (rest : List DbRow) :
    needUpdate m (some (row :: rest)) = false ↔
      row.uriF.isSome = true ∧ row.hashF = some m.hash ∧
        isEnoughInfo m.typ row = true := by
  cases hu : row.uriF with
  | none => simp [needUpdate, hu]
  | some u =>
    cases hh : row.hashF with
    | none => simp [needUpdate, hu, hh]
    | some hv =>
      by_cases hveq : hv = m.hash
      · subst hveq
        by_cases he : isEnoughInfo m.typ row = true
        · simp [needUpdate, hu, hh, he]
        · simp [needUpdate, hu, hh, he]
      · simp [needUpdate, hu, hh, hveq]

/-- C3: needUpdate reports no extraction needed iff the find response has
a first row carrying both uri and hash, the stored hash equals the item
hash, and isEnoughInfo holds; and isEnoughInfo means a present non-empty
thumbnail for audio and video, and present non-empty width and height for
image. -/
theorem c3_needUpdate_characterization (m : MediaItemState) (resp : Option (List DbRow)) :
    (needUpdate m resp = false ↔
      ∃ row rest, resp = some (row :: rest) ∧ row.uriF.isSome = true ∧
        row.hashF = some m.hash ∧ isEnoughInfo m.typ row = true) ∧
    ((m.typ = MediaType.audio ∨ m.typ = MediaType.video) → ∀ row : DbRow,
      (isEnoughInfo m.typ row = true ↔ ∃ s, row.thumbnailF = some s ∧ s ≠ "")) ∧
    (m.typ = MediaType.image → ∀ row : DbRow,
      (isEnoughInfo m.typ row = true ↔
        (∃ s, row.widthF = some s ∧ s ≠ "") ∧
        (∃ s, row.heightF = some s ∧ s ≠ ""))) := by
  refine ⟨?_, ?_, ?_⟩
  · cases resp with
    | none => simp [needUpdate]
    | some rows =>
      cases rows with
      | nil => simp [needUpdate]
      | cons row rest =>
        rw [needUpdate_cons_eq_false]
        constructor
        · rintro ⟨h1, h2, h3⟩
          exact ⟨row, rest, rfl, h1, h2, h3⟩
        · rintro ⟨row2, rest2, heq, h1, h2, h3⟩
          injection heq with heq2
          cases heq2
          exact ⟨h1, h2, h3⟩
  · rintro (ht | ht) row <;>
      · rw [ht]
        cases hth : row.thumbnailF with
        | none => simp [isEnoughInfo, hth]
        | some s =>
          simp [isEnoughInfo, hth, isEmpty_false_iff]
  · intro ht row
    rw [ht]
    cases hw : row.widthF with
    | none => simp [isEnoughInfo, hw]
    | some sw =>
      cases hhg : row.heightF with
      | none => simp [isEnoughInfo, hw, hhg]
      | some sh => simp [isEnoughInfo, hw, hhg, isEmpty_false_iff]

/-- A stored row matching sampleItem with a thumbnail. -/
def sampleRow : DbRow :=
  { uriF := some "msc://4013-0934/a.mp3"
    hashF := some 100
    thumbnailF := some "/media/.thumbnail/4013-0934/1.jpg"
    widthF := none
    heightF := none }

/-- Witness for C3: an unchanged audio item with a stored thumbnail needs
no extraction. -/
theorem c3_needUpdate_characterization_witness :
    needUpdate sampleItem (some [sampleRow]) = false :=
  (c3_needUpdate_characterization sampleItem (some [sampleRow])).1.mpr
    ⟨sampleRow, [], rfl, rfl, rfl, rfl⟩

/-- C5 counterexample: with a device uri ending in '/' and a path
beginning with '/', the constructed uri keeps both slashes, so it is not
the device uri and path joined by exactly one '/'. -/
theorem c5_counterexample :
    mediaItemUri "msc://A/".data "/b.mp3".data ≠
      specSingleSlashJoin "msc://A/".data "/b.mp3".data ∧
    mediaItemUri "msc://A/".data "/b.mp3".data = "msc://A//b.mp3".data := by
  constructor
  · decide
  · decide

/-- C5 amended: the constructed uri is the device uri and path joined by
exactly one '/' whenever the device uri does not end with '/' or the path
does not begin with '/'; when both carry a slash, both slashes are kept
and the junction is doubled. -/
theorem c5_mediaItemUri_join (D P : List Char) (hD : D ≠ []) (hP : P ≠ []) :
    (¬(D.getLast? = some '/' ∧ P.head? = some '/') →
      mediaItemUri D P = specSingleSlashJoin D P) ∧
    (D.getLast? = some '/' → P.head? = some '/' →
      mediaItemUri D P = D.dropLast ++ '/' :: '/' :: P.tail) := by
  constructor
  · intro hnot
    by_cases hd : D.getLast? = some '/'
    · have hp : P.head? ≠ some '/' := fun h => hnot ⟨hd, h⟩
      have hDeq : D.dropLast ++ ['/'] = D :=
        List.dropLast_append_getLast? '/' (Option.mem_def.mpr hd)
      rw [mediaItemUri, specSingleSlashJoin, if_neg (fun hcon => hcon.1 hd),
        if_pos hd, if_neg hp]
      conv_lhs => rw [← hDeq]
      simp
    · by_cases hp : P.head? = some '/'
      · have hPeq : P = '/' :: P.tail :=
          List.eq_cons_of_mem_head? (Option.mem_def.mpr hp)
        rw [mediaItemUri, specSingleSlashJoin, if_neg (fun hcon => hcon.2 hp),
          if_neg hd, if_pos hp]
        conv_lhs => rw [hPeq]
      · rw [mediaItemUri, specSingleSlashJoin, if_pos ⟨hd, hp⟩, if_neg hd, if_neg hp]
  · intro hd hp
    have hDeq : D.dropLast ++ ['/'] = D :=
      List.dropLast_append_getLast? '/' (Option.mem_def.mpr hd)
    have hPeq : P = '/' :: P.tail :=
      List.eq_cons_of_mem_head? (Option.mem_def.mpr hp)
    rw [mediaItemUri, if_neg (fun hcon => hcon.1 hd)]
    conv_lhs => rw [← hDeq, hPeq]
    simp

/-- Witness for C5 (amended): a device uri without a trailing slash and a
path without a leading slash are joined by inserting the single '/'. -/
theorem c5_mediaItemUri_join_witness :
    mediaItemUri "msc://A".data "b.mp3".data =
      specSingleSlashJoin "msc://A".data "b.mp3".data :=
  (c5_mediaItemUri_join "msc://A".data "b.mp3".data (by decide) (by decide)).1
    (by decide)

/-- C8: when the path of a requestMediaScan request matches the mountpoint
of no registered device in any plugin, the reply is the Scan Failed error
triple and no device scan is started. -/
theorem c8_requestMediaScan_noMatch (plugins : List ScanPlugin) (path : String)
    (waitOk : Bool)
    (h : ∀ p ∈ plugins, ∀ d ∈ p.devices, p.matchUri d.mountpoint path = false) :
    (requestMediaScan plugins path waitOk).1 =
      { returnValue := false, errorCode := -1, errorText := "Scan Failed" } ∧
    (requestMediaScan plugins path waitOk).2 = [] := by
  have hscan : scannedDevices plugins path = [] := by
    rw [scannedDevices, List.filterMap_eq_nil_iff]
    intro p hp
    rw [List.find?_eq_none]
    intro d hd
    simp [h p hp d hd]
  constructor
  · simp [requestMediaScan, hscan]
  · simp [requestMediaScan, hscan]

/-- A plugin with one device whose matchUri predicate rejects every
path. -/
def samplePlugin : ScanPlugin :=
  { devices := [{ uri := "msc://4013-0934", mountpoint := "/tmp/usb/sdg/sdg1" }]
    matchUri := fun _ _ => false }

/-- Witness for C8: a scan request for an unmatched path gets the Scan
Failed reply. -/
theorem c8_requestMediaScan_noMatch_witness :
    (requestMediaScan [samplePlugin] "/media/usb1" false).1 =
      { returnValue := false, errorCode := -1, errorText := "Scan Failed" } :=
  (c8_requestMediaScan_noMatch [samplePlugin] "/media/usb1" false
    (by
      intro p hp d hd
      rw [List.mem_singleton] at hp
      subst hp
      rfl)).1

/-- Filtering out a token leaves nothing for that token to look up. -/
theorem lookup_filter_token (m : List (Nat × SessionData)) (t : Nat) :
    List.lookup t (m.filter fun p => p.1 ≠ t) = none := by
  induction m with
  | nil => rfl
  | cons a m ih =>
    obtain ⟨k, v⟩ := a
    rw [List.filter_cons]
    by_cases hk : k = t
    · rw [if_neg (by simp [hk])]
      exact ih
    · rw [if_pos (by simp [hk]), List.lookup_cons]
      have hne : (t == k) = false := by
        simp [Ne.symm hk]
      rw [hne]
      exact ih

/-- C10: a token stored in the fresh session map is consumed by the first
lookup, which yields exactly the stored data and erases the entry; a
second lookup fails and leaves the map unchanged. -/
theorem c10_sessionMap_oneShot (m : List (Nat × SessionData)) (t : Nat)
    (method : String) (obj : Nat) (hfresh : List.lookup t m = none) :
    (sessionDataFromToken (rememberSessionData m t method obj) t).1 =
      some { method := method, object := obj } ∧
    List.lookup t (sessionDataFromToken (rememberSessionData m t method obj) t).2 =
      none ∧
    (sessionDataFromToken
      (sessionDataFromToken (rememberSessionData m t method obj) t).2 t).1 = none ∧
    (sessionDataFromToken
      (sessionDataFromToken (rememberSessionData m t method obj) t).2 t).2 =
      (sessionDataFromToken (rememberSessionData m t method obj) t).2 := by
  have h1 : rememberSessionData m t method obj =
      (t, { method := method, object := obj }) :: m := by
    rw [rememberSessionData, hfresh]
  have h2 : List.lookup t
      ((t, ({ method := method, object := obj } : SessionData)) :: m) =
      some { method := method, object := obj } := by
    simp [List.lookup]
  have h3 : sessionDataFromToken (rememberSessionData m t method obj) t =
      (some { method := method, object := obj },
        ((t, ({ method := method, object := obj } : SessionData)) :: m).filter
          fun p => p.1 ≠ t) := by
    rw [h1, sessionDataFromToken, h2]
  have h4 : (((t, ({ method := method, object := obj } : SessionData)) :: m).filter
      fun p => p.1 ≠ t) = m.filter fun p => p.1 ≠ t := by
    simp [List.filter]
  have h5 : List.lookup t (m.filter fun p => p.1 ≠ t) = none :=
    lookup_filter_token m t
  refine ⟨by rw [h3], ?_, ?_, ?_⟩
  · rw [h3]
    simp only [h4]
    exact h5
  · rw [h3]
    simp only [h4]
    rw [sessionDataFromToken, h5]
  · rw [h3]
    simp only [h4]
    rw [sessionDataFromToken, h5]

/-- Witness for C10: storing token 7 in the empty map, consuming it, and
looking it up again yields nothing. -/
theorem c10_sessionMap_oneShot_witness :
    (sessionDataFromToken
      (sessionDataFromToken (rememberSessionData [] 7 "find" 1) 7).2 7).1 = none :=
  (c10_sessionMap_oneShot [] 7 "find" 1 rfl).2.2.1

/-- The retry loop is still running after fuel iterations iff every
attempt in the window failed. -/
theorem findLoopRun_none_iff (o : Nat → Bool) (fuel i : Nat) :
    findLoopRun o fuel i = none ↔ ∀ j, i ≤ j → j < i + fuel → o j = false := by
  induction fuel generalizing i with
  | zero =>
    simp only [findLoopRun]
    constructor
    · intro _ j h1 h2
      omega
    · intro _
      trivial
  | succ fuel ih =>
    simp only [findLoopRun]
    by_cases hoi : o i = true
    · rw [if_pos hoi]
      constructor
      · intro h
        exact absurd h (by simp)
      · intro h
        have := h i (le_refl i) (by omega)
        rw [this] at hoi
        exact absurd hoi (by simp)
    · rw [if_neg hoi]
      rw [ih (i + 1)]
      constructor
      · intro h j h1 h2
        rcases Nat.eq_or_lt_of_le h1 with rfl | hlt
        · exact Bool.not_eq_true _ ▸ Bool.eq_false_iff.mpr hoi
        · exact h j hlt (by omega)
      · intro h j h1 h2
        exact h j (by omega) (by omega)

/-- The retry loop exits with n total find calls iff attempt n is the
first success. -/
theorem findLoopRun_some_iff (o : Nat → Bool) (fuel i n : Nat) :
    findLoopRun o fuel i = some n ↔
      i < n ∧ n ≤ i + fuel ∧ o (n - 1) = true ∧
        ∀ j, i ≤ j → j < n - 1 → o j = false := by
  induction fuel generalizing i with
  | zero =>
    simp only [findLoopRun]
    constructor
    · intro h
      exact absurd h (by simp)
    · rintro ⟨h1, h2, _⟩
      omega
  | succ fuel ih =>
    simp only [findLoopRun]
    by_cases hoi : o i = true
    · rw [if_pos hoi]
      constructor
      · intro h
        have hn : n = i + 1 := by
          have := Option.some.inj h
          omega
        subst hn
        refine ⟨by omega, by omega, by simpa using hoi, ?_⟩
        intro j h1 h2
        omega
      · rintro ⟨h1, h2, h3, h4⟩
        have hn : n = i + 1 := by
          by_contra hne
          have := h4 i (le_refl i) (by omega)
          rw [this] at hoi
          exact absurd hoi (by simp)
        rw [hn]
    · rw [if_neg hoi]
      rw [ih (i + 1)]
      constructor
      · rintro ⟨h1, h2, h3, h4⟩
        refine ⟨by omega, by omega, h3, ?_⟩
        intro j hj1 hj2
        rcases Nat.eq_or_lt_of_le hj1 with rfl | hlt
        · exact Bool.not_eq_true _ ▸ Bool.eq_false_iff.mpr hoi
        · exact h4 j hlt hj2
      · rintro ⟨h1, h2, h3, h4⟩
        have hne : n ≠ i + 1 := by
          intro hn
          subst hn
          simp at h3
          rw [h3] at hoi
          exact hoi rfl
        refine ⟨by omega, by omega, h3, fun j hj1 hj2 => h4 j (by omega) hj2⟩

/-- C9 counterexample: with every find attempt failing, the retry loop of
needUpdate is still issuing calls after 10 attempts (no cap of 3, no
failure return), and an execution whose fourth attempt is the first
success issues 4 find calls. -/
theorem c9_counterexample :
    findLoopRun (fun _ => false) 10 0 = none ∧
    findLoopRun (fun n => n == 3) 10 0 = some 4 := by
  constructor
  · rfl
  · rfl

/-- C9 amended: the find of needUpdate is retried without bound and
without backoff: within any observation window the loop has returned iff
some attempt in the window succeeded, and it returns n total calls
exactly when attempt n is the first success; with persistently failing
finds it never returns. -/
theorem c9_findRetry_unbounded (o : Nat → Bool) (fuel n : Nat) :
    (findLoopRun o fuel 0 = none ↔ ∀ j, j < fuel → o j = false) ∧
    (findLoopRun o fuel 0 = some n ↔
      0 < n ∧ n ≤ fuel ∧ o (n - 1) = true ∧ ∀ j, j < n - 1 → o j = false) := by
  constructor
  · rw [findLoopRun_none_iff]
    constructor
    · intro h j hj
      exact h j (Nat.zero_le j) (by omega)
    · intro h j _ hj
      exact h j (by omega)
  · rw [findLoopRun_some_iff]
    constructor
    · rintro ⟨h1, h2, h3, h4⟩
      exact ⟨h1, by omega, h3, fun j hj => h4 j (Nat.zero_le j) hj⟩
    · rintro ⟨h1, h2, h3, h4⟩
      exact ⟨h1, by omega, h3, fun j _ hj => h4 j hj⟩

/-- A merge leaves the kinds other than its target untouched. -/
theorem applyMerge_ne (store : KindId → List StoreRecord) (q : MergeQuery)
    (k : KindId) (h : k ≠ q.fromKind) : applyMerge store q k = store k := by
  simp only [applyMerge]
  rw [if_neg h]

/-- After a dirty-marking merge on a kind, every record of that kind whose
uri starts with the merge value is dirty. -/
theorem dirty_after_merge (store : KindId → List StoreRecord) (u : String)
    (kd : KindId) (r : StoreRecord)
    (hr : r ∈ applyMerge store (dbMerge kd [("dirty", DbVal.b true)] "uri" u false) kd)
    (hpre : strStartsWith u r.uri = true) : r.dirty = true := by
  simp only [applyMerge] at hr
  rw [if_pos (show kd = (dbMerge kd [("dirty", DbVal.b true)] "uri" u false).fromKind
    by rfl)] at hr
  obtain ⟨r0, hr0, heq⟩ := List.mem_map.mp hr
  by_cases hm :
      ((dbMerge kd [("dirty", DbVal.b true)] "uri" u false).whereCl.all
        (condMatches r0)) = true
  · rw [if_pos hm] at heq
    rw [← heq]
    rfl
  · rw [if_neg hm] at heq
    subst heq
    exfalso
    apply hm
    simp [dbMerge, condMatches, hpre]

/-- C2: markDirty with type EOL issues a dirty = true merge with
non-precise uri match to each of the three kinds; with a concrete type
only to that type's kind; and after applying the EOL fan-out to any
store, every record in every kind whose uri starts with the device uri is
dirty. -/
theorem c2_markDirty_fanout (u : String) :
    (markDirty u MediaType.eol).map (fun q => q.fromKind) =
      [KindId.audio, KindId.video, KindId.image] ∧
    (∀ q ∈ markDirty u MediaType.eol,
      q.whereCl = [{ prop := "uri", op := "%", val := DbVal.s u }] ∧
      ("dirty", DbVal.b true) ∈ q.props) ∧
    (∀ p ∈ kindPairs,
      markDirty u p.1 = [dbMerge p.2 [("dirty", DbVal.b true)] "uri" u false]) ∧
    (∀ store : KindId → List StoreRecord, ∀ k : KindId, ∀ r : StoreRecord,
      r ∈ applyMerges store (markDirty u MediaType.eol) k →
      strStartsWith u r.uri = true → r.dirty = true) := by
  refine ⟨rfl, ?_, ?_, ?_⟩
  · intro q hq
    simp only [markDirty, List.mem_cons, List.not_mem_nil, or_false] at hq
    rcases hq with rfl | rfl | rfl <;>
      exact ⟨rfl, by simp [dbMerge]⟩
  · intro p hp
    simp only [kindPairs, List.mem_cons, List.not_mem_nil, or_false] at hp
    rcases hp with rfl | rfl | rfl <;> rfl
  · intro store k r hmem hpre
    simp only [applyMerges, markDirty, List.foldl_cons, List.foldl_nil] at hmem
    cases k with
    | audio =>
      rw [applyMerge_ne _ _ _ (by simp [dbMerge]),
        applyMerge_ne _ _ _ (by simp [dbMerge])] at hmem
      exact dirty_after_merge store u KindId.audio r hmem hpre
    | video =>
      rw [applyMerge_ne _ _ _ (by simp [dbMerge])] at hmem
      have haud :
          applyMerge store (dbMerge KindId.audio [("dirty", DbVal.b true)]
            "uri" u false) KindId.video = store KindId.video :=
        applyMerge_ne _ _ _ (by simp [dbMerge])
      exact dirty_after_merge
        (applyMerge store (dbMerge KindId.audio [("dirty", DbVal.b true)] "uri" u false))
        u KindId.video r hmem (by exact hpre)
    | image =>
      exact dirty_after_merge
        (applyMerge
          (applyMerge store (dbMerge KindId.audio [("dirty", DbVal.b true)] "uri" u false))
          (dbMerge KindId.video [("dirty", DbVal.b true)] "uri" u false))
        u KindId.image r hmem hpre

/-- A one-record store, all kinds holding a clean record under the device
uri. -/
def sampleStore : KindId → List StoreRecord :=
  fun _ => [{ uri := "msc://X/a.mp3", dirty := false }]

/-- Witness for C2: after the EOL fan-out of markDirty, the record under
the device uri in the audio kind is dirty. -/
theorem c2_markDirty_fanout_witness :
    ({ uri := "msc://X/a.mp3", dirty := true } : StoreRecord).dirty = true :=
  (c2_markDirty_fanout "msc://X").2.2.2 sampleStore KindId.audio
    { uri := "msc://X/a.mp3", dirty := true } (by decide) (by decide)

/-- A uri starting with a non-empty device uri is itself non-empty. -/
theorem ne_empty_of_startsWith (a b : String) (ha : a ≠ "")
    (h : strStartsWith a b = true) : b ≠ "" := by
  intro hb
  subst hb
  rw [strStartsWith] at h
  cases hd : a.data with
  | nil => exact ha (String.ext hd)
  | cons c cs =>
    rw [hd] at h
    simp [List.isPrefixOf] at h

/-- C1: once a store-write acknowledgement makes processingDone hold, the
cleanup task runs the removeDirty sweep, which searches each of the three
kinds for records whose uri starts with the device uri and whose dirty
flag is true; and for every record a search returns, the response handler
deletes it from that kind by precise uri match and, when its thumbnail is
a non-empty path, unlinks the thumbnail file and calls sync. -/
theorem c1_cleanup_sweep (d : DeviceState) (t : MediaType)
    (hdone : processingDone (incrementProcessed d t) = true)
    (k : KindId) (results : List SearchResultItem) (item : SearchResultItem)
    (hitem : item ∈ results) (hne : d.uri ≠ "")
    (hpre : strStartsWith d.uri item.uri = true) :
    (handleMergePutAck d t).2 = removeDirty d.uri ∧
    ({ select := ["uri", "thumbnail"], fromKind := k,
       whereCl := prepareWhereStr "uri" d.uri false,
       filter := prepareWhereBool "dirty" true true,
       limit := none } : SearchQuery) ∈ removeDirty d.uri ∧
    CleanupAction.delRecord k (prepareWhereStr "uri" item.uri true) ∈
      removeDirtyResponseActions k results ∧
    (item.thumbnail ≠ "" →
      CleanupAction.unlinkFile item.thumbnail ∈
        removeDirtyResponseActions k results ∧
      CleanupAction.syncFs ∈ removeDirtyResponseActions k results) := by
  have huri : item.uri ≠ "" := ne_empty_of_startsWith d.uri item.uri hne hpre
  refine ⟨?_, ?_, ?_, ?_⟩
  · rw [handleMergePutAck]
    simp only [hdone]
    rfl
  · cases k <;> simp [removeDirty, kindPairs, prepareWhereStr, prepareWhereBool]
  · rw [removeDirtyResponseActions]
    rw [List.mem_flatMap]
    refine ⟨item, hitem, ?_⟩
    rw [if_pos huri]
    exact List.mem_append_left _ (List.mem_singleton.mpr rfl)
  · intro hth
    constructor
    · rw [removeDirtyResponseActions, List.mem_flatMap]
      refine ⟨item, hitem, ?_⟩
      refine List.mem_append_right _ ?_
      rw [if_pos hth]
      exact List.mem_cons_self _ _
    · rw [removeDirtyResponseActions, List.mem_flatMap]
      refine ⟨item, hitem, ?_⟩
      refine List.mem_append_right _ ?_
      rw [if_pos hth]
      exact List.mem_cons_of_mem _ (List.mem_singleton.mpr rfl)

/-- A device that has processed its single audio item once the pending
acknowledgement lands. -/
def sampleDevice : DeviceState :=
  { uri := "msc://X"
    itemCounts := fun t => match t with
      | MediaType.audio => 1
      | _ => 0
    processedCounts := fun _ => 0 }

/-- Witness for C1: the acknowledgement completing the sample device
triggers the sweep whose search answers are deleted precisely. -/
theorem c1_cleanup_sweep_witness :
    (handleMergePutAck sampleDevice MediaType.audio).2 = removeDirty "msc://X" ∧
    CleanupAction.delRecord KindId.audio
        (prepareWhereStr "uri" "msc://X/gone.mp3" true) ∈
      removeDirtyResponseActions KindId.audio
        [{ uri := "msc://X/gone.mp3",
           thumbnail := "/media/.thumbnail/X/1.jpg" }] :=
  by
    have h := c1_cleanup_sweep sampleDevice MediaType.audio (by decide)
      KindId.audio
      [{ uri := "msc://X/gone.mp3", thumbnail := "/media/.thumbnail/X/1.jpg" }]
      { uri := "msc://X/gone.mp3", thumbnail := "/media/.thumbnail/X/1.jpg" }
      (by decide) (by decide) (by decide)
    exact ⟨h.1, h.2.2.1⟩

/-- Association lookup distributes over list append. -/
theorem lookupAppend (e : String) (m m2 : ExtMap) :
    List.lookup e (m ++ m2) =
      ((List.lookup e m).orElse fun _ => List.lookup e m2) := by
  induction m with
  | nil => rfl
  | cons a m ih =>
    obtain ⟨key, w⟩ := a
    rw [List.cons_append, List.lookup_cons, List.lookup_cons]
    cases hek : e == key with
    | true => rfl
    | false => exact ih

/-- Lookup after a no-overwrite insert. -/
theorem extInsert_lookup (m : ExtMap) (key : String) (v : MediaType × ExtractorType)
    (e : String) :
    List.lookup e (extInsert m key v) =
      ((List.lookup e m).orElse fun _ => if e = key then some v else none) := by
  rw [extInsert]
  cases hm : List.lookup key m with
  | some w =>
    by_cases he : e = key
    · subst he
      rw [hm]
      rfl
    · cases hem : List.lookup e m with
      | some w2 => rfl
      | none => simp [Option.orElse, he]
  | none =>
    rw [lookupAppend]
    cases hem : List.lookup e m with
    | some w2 => rfl
    | none =>
      simp only [Option.orElse]
      rw [List.lookup_cons]
      by_cases he : e = key
      · subst he
        simp
      · rw [show (e == key) = false by simpa using he]
        simp [he]

/-- Lookup after folding no-overwrite inserts of per-key values over a
list of keys. -/
theorem lookup_foldl_extInsert (g : String → MediaType × ExtractorType)
    (l : List String) (m : ExtMap) (e : String) :
    List.lookup e (l.foldl (fun acc x => extInsert acc x (g x)) m) =
      ((List.lookup e m).orElse fun _ =>
        if e ∈ l then some (g e) else none) := by
  induction l generalizing m with
  | nil =>
    rw [List.foldl_nil]
    cases hem : List.lookup e m with
    | some w => rfl
    | none => simp [Option.orElse]
  | cons x l ih =>
    rw [List.foldl_cons, ih, extInsert_lookup]
    cases List.lookup e m with
    | some w => rfl
    | none =>
      simp only [Option.orElse]
      by_cases hex : e = x
      · subst hex
        simp
      · simp [hex, List.mem_cons]

/-- The full lookup shape of the Configurator table: audio entries first,
then video, then image, first occurrence winning. -/
theorem configInit_lookup (c : MediaConfig) (e : String) :
    List.lookup e (configInit c) =
      (((if e ∈ c.audioExts then some (audioTypeInfo e) else none).orElse fun _ =>
        if e ∈ c.videoExts then
          some (MediaType.video, ExtractorType.gstreamer) else none).orElse fun _ =>
        if e ∈ c.imageExts then
          some (MediaType.image, ExtractorType.imageExtractor) else none) := by
  rw [configInit]
  rw [lookup_foldl_extInsert, lookup_foldl_extInsert, lookup_foldl_extInsert]
  rfl

/-- C6 counterexample: a configuration document listing mp3 both as an
audio and as a video extension maps mp3 to (Audio, TagLibExtractor), not
to (Video, GStreamerExtractor) as the claim requires for every video
extension. -/
theorem c6_counterexample :
    "mp3" ∈ (MediaConfig.mk ["mp3"] ["mp3"] []).videoExts ∧
    getTypeInfo (configInit (MediaConfig.mk ["mp3"] ["mp3"] [])) "mp3" =
      (MediaType.audio, ExtractorType.taglib) ∧
    getTypeInfo (configInit (MediaConfig.mk ["mp3"] ["mp3"] [])) "mp3" ≠
      (MediaType.video, ExtractorType.gstreamer) := by
  refine ⟨by decide, by decide, by decide⟩

/-- C6 amended: when no extension is listed in more than one of the three
arrays, the Configurator maps mp3 and ogg audio extensions to
(Audio, TagLibExtractor), every other audio extension to
(Audio, GStreamerExtractor), every video extension to
(Video, GStreamerExtractor), every image extension to
(Image, ImageExtractor), and getTypeInfo answers (EOL, EOL) for any
extension not present. -/
theorem c6_configurator_mapping (c : MediaConfig)
    (hav : ∀ e ∈ c.audioExts, e ∉ c.videoExts)
    (hai : ∀ e ∈ c.audioExts, e ∉ c.imageExts)
    (hvi : ∀ e ∈ c.videoExts, e ∉ c.imageExts) :
    (∀ e ∈ c.audioExts, getTypeInfo (configInit c) e =
      if e = "mp3" ∨ e = "ogg" then (MediaType.audio, ExtractorType.taglib)
      else (MediaType.audio, ExtractorType.gstreamer)) ∧
    (∀ e ∈ c.videoExts,
      getTypeInfo (configInit c) e = (MediaType.video, ExtractorType.gstreamer)) ∧
    (∀ e ∈ c.imageExts,
      getTypeInfo (configInit c) e = (MediaType.image, ExtractorType.imageExtractor)) ∧
    (∀ e, e ∉ c.audioExts → e ∉ c.videoExts → e ∉ c.imageExts →
      getTypeInfo (configInit c) e = (MediaType.eol, ExtractorType.eol)) := by
  refine ⟨?_, ?_, ?_, ?_⟩
  · intro e he
    rw [getTypeInfo, configInit_lookup, if_pos he]
    simp only [Option.orElse]
    rw [audioTypeInfo]
    by_cases h3 : e = "mp3" ∨ e = "ogg"
    · rcases h3 with rfl | rfl <;> simp
    · push_neg at h3
      simp [h3.1, h3.2]
  · intro e he
    rw [getTypeInfo, configInit_lookup, if_neg (fun ha => hav e ha he), if_pos he]
    rfl
  · intro e he
    rw [getTypeInfo, configInit_lookup, if_neg (fun ha => hai e ha he),
      if_neg (fun hv => hvi e hv he), if_pos he]
    rfl
  · intro e ha hv hi
    rw [getTypeInfo, configInit_lookup, if_neg ha, if_neg hv, if_neg hi]
    rfl

/-- The configuration of the spec scenario: audio mp3 and flac, video
mp4, image jpg. -/
def sampleConfig : MediaConfig :=
  { audioExts := ["mp3", "flac"], videoExts := ["mp4"], imageExts := ["jpg"] }

/-- Witness for C6 (amended): flac resolves to the GStreamer audio
extractor in the sample configuration. -/
theorem c6_configurator_mapping_witness :
    getTypeInfo (configInit sampleConfig) "flac" =
      (MediaType.audio, ExtractorType.gstreamer) := by
  have h := (c6_configurator_mapping sampleConfig
    (by decide) (by decide) (by decide)).1 "flac" (by decide)
  simpa using h

/-- C4 (code bug): at the failing request, the getImageMetadata handler
builds its store query through getVideoList, so the query goes to the
video kind and not to the image kind the getImageList builder targets. -/
theorem c4_imageMetadata_queries_videoKind :
    (onGetImageMetadataQuery "msc://4013-0934/a.jpg").fromKind = KindId.video ∧
    KindId.video ≠ KindId.image ∧
    (getImageListQuery "msc://4013-0934/a.jpg" 0).fromKind = KindId.image := by
  refine ⟨rfl, by decide, rfl⟩

end MediaIndexer
